import Mathlib

/-!
# Verification of the segmented-table reshaping engine

Shallow embedding of `src/dataExtract.py` (Loose CSV Loader, Segment Scanner,
Header Unifier, Record Mapper) and of the row-dropping cleaner pre-pass of
`src/clean_csvs.py`.

Modelling conventions:
* A pandas cell is `Cell := Option String`; `none` models `pd.NA`.
* `read_csv_loose` is modelled from the point where Python's `csv.reader`
  has already split the decoded text into a list of rows of string fields
  (decoding with `errors="replace"` and `csv.reader` over a file never fail,
  so the loader itself is total; its input here is that list of rows).
* Python exceptions in the scan loop are modelled by `Option`: the per-row
  scan step returns `none` exactly where the Python code would raise
  (`values[0]` on an empty row raises `IndexError`).
* `global_headers` in the source is a Python `set`; only its membership is
  specified by the language.  The state below keeps the underlying
  membership as a duplicate-free list, and the materialisation
  `list(global_headers)` is modelled as an arbitrary enumeration `e`
  satisfying `IsEnumOf e`, since CPython's hash-based iteration order is
  unspecified (and varies across runs under string-hash randomisation).
* Python `str.strip` is modelled by `pyStrip` (whitespace per
  `Char.isWhitespace`); truthiness of strings / lists / `None` is modelled
  by `pyTruthy` / `pyTruthyList`.
-/

/-- A grid cell: `none` models a missing value (`pd.NA`). -/
abbrev Cell := Option String

/-- Strip leading and trailing whitespace from a character list
(models Python `str.strip`). -/
def stripChars (s : List Char) : List Char :=
  ((s.dropWhile Char.isWhitespace).reverse.dropWhile Char.isWhitespace).reverse

/-- Models Python `str.strip` on strings. -/
def pyStrip (s : String) : String :=
  (stripChars s.toList).asString

/-- Models Python `s.startswith(pat)`. -/
def pyStartsWith (s pat : String) : Bool :=
  pat.toList.isPrefixOf s.toList

/-- `df.replace({"": pd.NA})` applied to a single (already stripped) cell. -/
def toCell (s : String) : Cell :=
  if s = "" then none else some s

/-- Maximum row length of the raw input rows
(`max_cols = max(len(r) for r in rows)` in the source; `0` for no rows). -/
def maxRowLen (rows : List (List String)) : Nat :=
  (rows.map List.length).foldr max 0

/-- `read_csv_loose` from `src/dataExtract.py`, modelled from the point where
`csv.reader` has produced the list of raw rows: every cell is stripped, every
row is right-padded with `""` up to the maximum row length, and `""` cells
become missing (`pd.NA`). -/
def read_csv_loose (rawRows : List (List String)) : List (List Cell) :=
  let rows := rawRows.map (fun r => r.map pyStrip)
  if rows = [] then []
  else
    let max_cols := (rows.map List.length).foldr max 0
    rows.map (fun r => (r ++ List.replicate (max_cols - r.length) "").map toCell)

/-- One sealed segment (`{"company": ..., "header": ..., "rows": ...}`). -/
structure Segment where
  company : String
  header : List String
  rows : List (List Cell)
deriving DecidableEq, Repr

/-- State of the per-file scan loop of `src/dataExtract.py`
(`segments`, `current_company`, `current_header`, `current_rows`,
`global_headers`). -/
structure ScanState where
  segments : List Segment
  current_company : Option String
  current_header : Option (List String)
  current_rows : List (List Cell)
  global_headers : List String
deriving DecidableEq, Repr

/-- Python truthiness of `current_company` (an optional string):
`None` and `""` are falsy. -/
def pyTruthy : Option String → Bool
  | none => false
  | some s => if s = "" then false else true

/-- Python truthiness of `current_header` (an optional list):
`None` and `[]` are falsy. -/
def pyTruthyList : Option (List String) → Bool
  | none => false
  | some [] => false
  | some (_ :: _) => true

/-- `flush_segment` from `src/dataExtract.py`:
`if current_company and current_header and current_rows: segments.append(...)`. -/
def flush_segment (company : Option String) (header : Option (List String))
    (rows : List (List Cell)) (segments : List Segment) : List Segment :=
  match company, header with
  | some c, some h =>
      if c ≠ "" ∧ h ≠ [] ∧ rows ≠ [] then segments ++ [⟨c, h, rows⟩] else segments
  | _, _ => segments

/-- `row.count()` in pandas: the number of non-missing cells of the row. -/
def rowCount (values : List Cell) : Nat :=
  (values.filter Option.isSome).length

/-- The header captured from a row:
`[str(x).strip() if pd.notna(x) else "" for x in values]`. -/
def headerOfValues (values : List Cell) : List String :=
  values.map (fun c => match c with | some s => pyStrip s | none => "")

/-- Python `set` insertion: membership-preserving, duplicate-free. -/
def pySetInsert (s : List String) (x : String) : List String :=
  if x ∈ s then s else s ++ [x]

/-- `global_headers.update(xs)` on the underlying membership of the set. -/
def pySetUpdate (s : List String) (xs : List String) : List String :=
  xs.foldl pySetInsert s

/-- One iteration of the scan loop of `src/dataExtract.py` (lines 45-64) on
`values = row.tolist()`.  Returns `none` where Python raises: `values[0]`
on an empty row raises `IndexError`. -/
def scanStep (st : ScanState) (values : List Cell) : Option ScanState :=
  match values with
  | [] => none
  | v0 :: _ =>
      -- if pd.notna(values[0]) and row.count() == 1:
      if v0 ≠ none ∧ rowCount values = 1 then
        some { segments := flush_segment st.current_company st.current_header
                  st.current_rows st.segments,
               current_company := v0, current_header := none, current_rows := [],
               global_headers := st.global_headers }
      -- elif current_company and current_header is None and row.count() > 0:
      else if pyTruthy st.current_company = true ∧ st.current_header = none ∧
          0 < rowCount values then
        some { st with
               current_header := some (headerOfValues values),
               global_headers := pySetUpdate st.global_headers
                  ((headerOfValues values).filter (fun h => h ≠ "")) }
      -- elif current_company and current_header and row.count() > 0:
      else if pyTruthy st.current_company = true ∧
          pyTruthyList st.current_header = true ∧ 0 < rowCount values then
        some { st with current_rows := st.current_rows ++ [values] }
      else
        some st

/-- The scan loop over all rows of the grid. -/
def scanRows : ScanState → List (List Cell) → Option ScanState
  | st, [] => some st
  | st, v :: rest =>
      match scanStep st v with
      | none => none
      | some st2 => scanRows st2 rest

/-- Initial state of the scan loop. -/
def initState : ScanState := ⟨[], none, none, [], []⟩

/-- The Segment Scanner: runs the scan loop over the grid and performs the
final `flush_segment()`.  Returns the sealed segments together with the
membership of `global_headers`; `none` models an uncaught Python exception. -/
def scanGrid (grid : List (List Cell)) : Option (List Segment × List String) :=
  match scanRows initState grid with
  | none => none
  | some st =>
      some (flush_segment st.current_company st.current_header
              st.current_rows st.segments,
            st.global_headers)

/-- The literal name of the synthetic group-label column
(`global_headers.append("公司名称")`). -/
def GROUP_COL : String := "公司名称"

/-- `e` is a possible result of `list(s)` for the Python set with membership
`s`: duplicate-free and with exactly the members of `s`.  CPython's hash-based
iteration order is unspecified, so any such `e` is a possible outcome. -/
def IsEnumOf (e s : List String) : Prop :=
  e.Nodup ∧ (∀ x ∈ e, x ∈ s) ∧ (∀ x ∈ s, x ∈ e)

instance (e s : List String) : Decidable (IsEnumOf e s) := by
  unfold IsEnumOf; infer_instance

/-- The Global Schema: `list(global_headers)` (here: a chosen enumeration `e`
of the set) followed by the appended synthetic group-label column. -/
def globalSchema (e : List String) : List String :=
  e ++ [GROUP_COL]

/-- Python dict update `rec[k] = v` on a record viewed as a lookup function. -/
def updateRec (rec : String → Cell) (k : String) (v : Cell) : String → Cell :=
  fun q => if q = k then v else rec q

/-- The positional assignment loop of the Record Mapper:
`for idx, value in enumerate(r): if idx < len(header) and header[idx]:
rec[header[idx]] = value`, started at index `idx`. -/
def assignLoop (header : List String) : Nat → List Cell → (String → Cell) → (String → Cell)
  | _, [], rec => rec
  | idx, v :: vs, rec =>
      assignLoop header (idx + 1) vs
        (if idx < header.length ∧ header.getD idx "" ≠ "" then
           updateRec rec (header.getD idx "") v
         else rec)

/-- The Record Mapper for a single data row: initialise every column to
`None`, run the positional assignment loop, then `rec["公司名称"] = company`. -/
def mapRow (header : List String) (company : String) (r : List Cell) : String → Cell :=
  updateRec (assignLoop header 0 r (fun _ => none)) GROUP_COL (some company)

/-- All Output Records of a file, in segment order then row order
(lines 76-88 of `src/dataExtract.py`). -/
def buildRecords (segs : List Segment) : List (String → Cell) :=
  segs.flatMap (fun seg => seg.rows.map (fun r => mapRow seg.header seg.company r))

/-!
## Row-dropping cleaner pre-pass (`src/clean_csvs.py`)

`_parse_csv_line` feeds one physical line to Python's `csv.reader` (default
dialect: delimiter `,`, quotechar `"`, doublequote, non-strict) and takes the
first record.  The parser below follows those semantics: a field starting
with `"` is quoted, `""` inside quotes is a literal quote, text after the
closing quote is appended literally (non-strict), an unquoted `\r` or `\n`
terminates the record (the rest of the line would belong to a second record
that `next(reader)` never retrieves).  `csv.reader` on the empty string
yields no record, so `next` raises `StopIteration` and `_parse_csv_line`
returns `None`; that is the `none` case below.
-/

/-- Parser states of the single-line CSV parse. -/
inductive CsvSt
  | recordStart | fieldStart | unquoted | quoted | afterQuote
deriving DecidableEq, Repr

/-- A record-terminating character outside quotes. -/
def csvEndl (c : Char) : Bool :=
  if c = '\n' then true else if c = '\r' then true else false

/-- The single-record CSV scan.  `cur` is the current field accumulated in
reverse; `acc` the finished fields. -/
def csvScan : CsvSt → List Char → List Char → List String → List String
  | CsvSt.recordStart, _, [], acc => acc
  | CsvSt.fieldStart, _, [], acc => acc ++ [""]
  | CsvSt.unquoted, cur, [], acc => acc ++ [cur.reverse.asString]
  | CsvSt.quoted, cur, [], acc => acc ++ [cur.reverse.asString]
  | CsvSt.afterQuote, cur, [], acc => acc ++ [cur.reverse.asString]
  | CsvSt.recordStart, cur, c :: rest, acc =>
      if csvEndl c then acc
      else if c = '"' then csvScan CsvSt.quoted cur rest acc
      else if c = ',' then csvScan CsvSt.fieldStart cur rest (acc ++ [""])
      else csvScan CsvSt.unquoted [c] rest acc
  | CsvSt.fieldStart, cur, c :: rest, acc =>
      if csvEndl c then acc ++ [""]
      else if c = '"' then csvScan CsvSt.quoted cur rest acc
      else if c = ',' then csvScan CsvSt.fieldStart cur rest (acc ++ [""])
      else csvScan CsvSt.unquoted [c] rest acc
  | CsvSt.unquoted, cur, c :: rest, acc =>
      if csvEndl c then acc ++ [cur.reverse.asString]
      else if c = ',' then csvScan CsvSt.fieldStart [] rest (acc ++ [cur.reverse.asString])
      else csvScan CsvSt.unquoted (c :: cur) rest acc
  | CsvSt.quoted, cur, c :: rest, acc =>
      if c = '"' then csvScan CsvSt.afterQuote cur rest acc
      else csvScan CsvSt.quoted (c :: cur) rest acc
  | CsvSt.afterQuote, cur, c :: rest, acc =>
      if c = '"' then csvScan CsvSt.quoted ('"' :: cur) rest acc
      else if csvEndl c then acc ++ [cur.reverse.asString]
      else if c = ',' then csvScan CsvSt.fieldStart [] rest (acc ++ [cur.reverse.asString])
      else csvScan CsvSt.unquoted (c :: cur) rest acc

/-- `_parse_csv_line` from `src/clean_csvs.py`: `none` on the empty string
(where `next(reader)` raises `StopIteration`, caught and turned into `None`). -/
def parse_csv_line (line : String) : Option (List String) :=
  if line = "" then none
  else some (csvScan CsvSt.recordStart [] line.toList [])

/-- `_normalize_cell` from `src/clean_csvs.py`: strip, drop a leading `=`,
strip one pair of surrounding double quotes, strip again. -/
def normalize_cell (cell : String) : String :=
  let v1 := stripChars cell.toList
  let v2 := if v1.head? = some '=' then (v1.drop 1).dropWhile Char.isWhitespace else v1
  let v3 := if 2 ≤ v2.length ∧ v2.head? = some '"' ∧ v2.getLast? = some '"'
            then (v2.drop 1).dropLast else v2
  (stripChars v3).asString

/-- `_row_is_effectively_empty` from `src/clean_csvs.py`. -/
def row_is_effectively_empty (cells : List String) : Bool :=
  cells.all (fun c => normalize_cell c = "")

/-- `_first_nonempty_cell` from `src/clean_csvs.py`: the first cell whose
normalised form is non-empty, or `""` if there is none. -/
def first_nonempty_cell (cells : List String) : String :=
  ((cells.map normalize_cell).filter (fun c => ¬ c = "")).headD ""

/-- `_should_drop_line` from `src/clean_csvs.py` (`pfx` models the
`drop_prefix` keyword argument). -/
def should_drop_line (pfx : String) (line : String) : Bool :=
  if pyStrip line = "" then true
  else
    match parse_csv_line line with
    | none => false
    | some cells =>
        if row_is_effectively_empty cells then true
        else if pyStartsWith (first_nonempty_cell cells) pfx then true
        else false

/-- The per-line loop of `clean_one_file` on the lines after the first
physical line: returns (kept source lines in order, kept count, dropped
count). -/
def cleanRest (pfx : String) : List String → List String × Nat × Nat
  | [] => ([], 0, 0)
  | line :: rest =>
      let r := cleanRest pfx rest
      if should_drop_line pfx line then (r.1, r.2.1, r.2.2 + 1)
      else (line :: r.1, r.2.1 + 1, r.2.2)

/-- `clean_one_file` from `src/clean_csvs.py`, modelled on the list of
physical lines of the file: the first line (`line_number == 1`) is always
dropped, the remaining lines go through `_should_drop_line`.  Returns the
kept source lines together with the (kept, dropped) counters.  (The rewrite
of kept lines via `_unwrap_excel_text_formula` changes their rendering, not
which lines are kept, and is not modelled.) -/
def clean_one_file (pfx : String) (lines : List String) : List String × Nat × Nat :=
  match lines with
  | [] => ([], 0, 0)
  | _ :: rest =>
      let r := cleanRest pfx rest
      (r.1, r.2.1, r.2.2 + 1)

/-!
## Concrete inputs used by the counterexamples and witnesses
-/

/-- Scenario A of the specification, as the raw rows of the input file. -/
def scenarioA : List (List String) :=
  [["CompanyA"], ["Name", "Age"], ["Alice", "30"], ["CompanyB"], ["Name", "City"], ["Bob", "NYC"]]

/-- The segments the scanner produces on Scenario A. -/
def segsA : List Segment :=
  [⟨"CompanyA", ["Name", "Age"], [[some "Alice", some "30"]]⟩,
   ⟨"CompanyB", ["Name", "City"], [[some "Bob", some "NYC"]]⟩]

/-- The membership of `global_headers` after scanning Scenario A. -/
def hsA : List String := ["Name", "Age", "City"]

/-!
## Helper lemmas
-/

lemma mem_pySetInsert {s : List String} {x y : String} :
    y ∈ pySetInsert s x ↔ y ∈ s ∨ y = x := by
  unfold pySetInsert
  split
  · rename_i hx
    constructor
    · exact fun h => Or.inl h
    · rintro (h | rfl)
      · exact h
      · exact hx
  · simp [List.mem_append]

lemma mem_pySetUpdate {xs : List String} : ∀ {s : List String} {y : String},
    y ∈ pySetUpdate s xs ↔ y ∈ s ∨ y ∈ xs := by
  induction xs with
  | nil => intro s y; simp [pySetUpdate]
  | cons x xs ih =>
      intro s y
      show y ∈ pySetUpdate (pySetInsert s x) xs ↔ _
      rw [ih, mem_pySetInsert]
      simp [or_assoc]

/-- Every segment appended by `flush_segment` satisfies the truthiness
conditions of the `if` in the source. -/
def SegOK (seg : Segment) : Prop :=
  seg.company ≠ "" ∧ seg.header ≠ [] ∧ seg.rows ≠ []

lemma segOK_flush {c : Option String} {h : Option (List String)}
    {r : List (List Cell)} {segs : List Segment}
    (hs : ∀ s ∈ segs, SegOK s) :
    ∀ s ∈ flush_segment c h r segs, SegOK s := by
  intro s hmem
  cases c with
  | none => exact hs s hmem
  | some cc =>
      cases h with
      | none => exact hs s hmem
      | some hh =>
          simp only [flush_segment] at hmem
          by_cases hcond : cc ≠ "" ∧ hh ≠ [] ∧ r ≠ []
          · rw [if_pos hcond] at hmem
            rcases List.mem_append.mp hmem with h1 | h2
            · exact hs s h1
            · simp only [List.mem_singleton] at h2
              subst h2
              exact ⟨hcond.1, hcond.2.1, hcond.2.2⟩
          · rw [if_neg hcond] at hmem
            exact hs s hmem

lemma segsOK_scanStep {st st2 : ScanState} {v : List Cell}
    (h : scanStep st v = some st2)
    (hs : ∀ s ∈ st.segments, SegOK s) :
    ∀ s ∈ st2.segments, SegOK s := by
  cases v with
  | nil => simp [scanStep] at h
  | cons v0 rest =>
      simp only [scanStep] at h
      split_ifs at h with h1 h2 h3 <;>
        · injection h with h
          subst h
          first
            | exact segOK_flush hs
            | simpa using hs

lemma segsOK_scanRows {grid : List (List Cell)} : ∀ {st st2 : ScanState},
    scanRows st grid = some st2 → (∀ s ∈ st.segments, SegOK s) →
    ∀ s ∈ st2.segments, SegOK s := by
  induction grid with
  | nil =>
      intro st st2 h hs
      simp only [scanRows] at h
      injection h with h
      subst h
      exact hs
  | cons v rest ih =>
      intro st st2 h hs
      simp only [scanRows] at h
      cases hstep : scanStep st v with
      | none => rw [hstep] at h; simp at h
      | some st1 =>
          rw [hstep] at h
          exact ih h (segsOK_scanStep hstep hs)

/-- All segments emitted by `scanGrid` satisfy `SegOK`. -/
lemma segsOK_scanGrid {grid : List (List Cell)} {segs : List Segment}
    {hs : List String} (h : scanGrid grid = some (segs, hs)) :
    ∀ s ∈ segs, SegOK s := by
  unfold scanGrid at h
  cases hrun : scanRows initState grid with
  | none => rw [hrun] at h; simp at h
  | some st =>
      rw [hrun] at h
      injection h with h
      have hinv : ∀ s ∈ st.segments, SegOK s :=
        segsOK_scanRows hrun (by intro s hm; simp [initState] at hm)
      have h1 : flush_segment st.current_company st.current_header
          st.current_rows st.segments = segs := congrArg Prod.fst h
      intro s hmem
      exact segOK_flush hinv s (h1 ▸ hmem)

/-- Invariant: every non-empty header cell of a sealed or in-progress segment
is a member of `global_headers`. -/
def HdrOK (st : ScanState) : Prop :=
  (∀ seg ∈ st.segments, ∀ x ∈ seg.header, x ≠ "" → x ∈ st.global_headers) ∧
  (∀ hl, st.current_header = some hl → ∀ x ∈ hl, x ≠ "" → x ∈ st.global_headers)

lemma hdrOK_flush {c : Option String} {h : Option (List String)}
    {r : List (List Cell)} {segs : List Segment} {G : List String}
    (hsegs : ∀ seg ∈ segs, ∀ x ∈ seg.header, x ≠ "" → x ∈ G)
    (hcur : ∀ hl, h = some hl → ∀ x ∈ hl, x ≠ "" → x ∈ G) :
    ∀ seg ∈ flush_segment c h r segs, ∀ x ∈ seg.header, x ≠ "" → x ∈ G := by
  intro seg hmem
  cases c with
  | none => exact hsegs seg hmem
  | some cc =>
      cases h with
      | none => exact hsegs seg hmem
      | some hh =>
          simp only [flush_segment] at hmem
          by_cases hcond : cc ≠ "" ∧ hh ≠ [] ∧ r ≠ []
          · rw [if_pos hcond] at hmem
            rcases List.mem_append.mp hmem with h1 | h2
            · exact hsegs seg h1
            · simp only [List.mem_singleton] at h2
              subst h2
              exact hcur hh rfl
          · rw [if_neg hcond] at hmem
            exact hsegs seg hmem

lemma hdrOK_scanStep {st st2 : ScanState} {v : List Cell}
    (h : scanStep st v = some st2) (hι : HdrOK st) : HdrOK st2 := by
  cases v with
  | nil => simp [scanStep] at h
  | cons v0 rest =>
      simp only [scanStep] at h
      split_ifs at h with h1 h2 h3 <;>
        (injection h with h; subst h)
      · exact ⟨hdrOK_flush hι.1 hι.2, by intro hl hcontra; simp at hcontra⟩
      · constructor
        · intro seg hmem x hx hxe
          exact mem_pySetUpdate.mpr (Or.inl (hι.1 seg hmem x hx hxe))
        · intro hl hcur x hx hxe
          simp only [Option.some.injEq] at hcur
          subst hcur
          refine mem_pySetUpdate.mpr (Or.inr ?_)
          refine List.mem_filter.mpr ⟨hx, ?_⟩
          simpa using hxe
      · exact hι
      · exact hι

lemma hdrOK_scanRows {grid : List (List Cell)} : ∀ {st st2 : ScanState},
    scanRows st grid = some st2 → HdrOK st → HdrOK st2 := by
  induction grid with
  | nil =>
      intro st st2 h hι
      simp only [scanRows] at h
      injection h with h
      subst h
      exact hι
  | cons v rest ih =>
      intro st st2 h hι
      simp only [scanRows] at h
      cases hstep : scanStep st v with
      | none => rw [hstep] at h; simp at h
      | some st1 =>
          rw [hstep] at h
          exact ih h (hdrOK_scanStep hstep hι)

/-- Every non-empty header cell of an emitted segment is in the returned
`global_headers` membership. -/
lemma hdrs_scanGrid {grid : List (List Cell)} {segs : List Segment}
    {hs : List String} (h : scanGrid grid = some (segs, hs)) :
    ∀ seg ∈ segs, ∀ x ∈ seg.header, x ≠ "" → x ∈ hs := by
  unfold scanGrid at h
  cases hrun : scanRows initState grid with
  | none => rw [hrun] at h; simp at h
  | some st =>
      rw [hrun] at h
      injection h with h
      have hinv : HdrOK st :=
        hdrOK_scanRows hrun (by constructor <;> intro s hm <;> simp [initState] at hm)
      have h1 : flush_segment st.current_company st.current_header
          st.current_rows st.segments = segs := congrArg Prod.fst h
      have h2 : st.global_headers = hs := congrArg Prod.snd h
      intro seg hmem
      exact h2 ▸ hdrOK_flush hinv.1 hinv.2 seg (h1 ▸ hmem)

lemma le_foldr_max {l : List Nat} {x : Nat} (h : x ∈ l) :
    ∀ n, x ≤ l.foldr max n := by
  induction l with
  | nil => simp at h
  | cons a l ih =>
      intro n
      rcases List.mem_cons.mp h with rfl | h2
      · exact le_max_left _ _
      · exact le_trans (ih h2 n) (le_max_right _ _)

lemma maxRowLen_stripped (rawRows : List (List String)) :
    ((rawRows.map (fun r => r.map pyStrip)).map List.length).foldr max 0 =
      maxRowLen rawRows := by
  unfold maxRowLen
  congr 1
  rw [List.map_map]
  exact List.map_congr_left (fun r _ => List.length_map _ _)

/-- Every row of a loader grid has the maximum source row length. -/
lemma read_csv_loose_length {rawRows : List (List String)} {r : List Cell}
    (h : r ∈ read_csv_loose rawRows) : r.length = maxRowLen rawRows := by
  unfold read_csv_loose at h
  by_cases hnil : rawRows.map (fun r => r.map pyStrip) = []
  · rw [if_pos hnil] at h
    simp at h
  · rw [if_neg hnil] at h
    rcases List.mem_map.mp h with ⟨r0, hr0, rfl⟩
    rw [List.length_map, List.length_append, List.length_replicate]
    rw [maxRowLen_stripped]
    have hle : r0.length ≤ maxRowLen rawRows := by
      rw [← maxRowLen_stripped]
      exact le_foldr_max (List.mem_map_of_mem List.length hr0) 0
    omega

lemma scanStep_isSome {st : ScanState} {v : List Cell} (h : v ≠ []) :
    (scanStep st v).isSome = true := by
  cases v with
  | nil => simp at h
  | cons v0 rest =>
      simp only [scanStep]
      split_ifs <;> rfl

lemma scanRows_isSome {grid : List (List Cell)} : ∀ (st : ScanState),
    (∀ v ∈ grid, v ≠ []) → (scanRows st grid).isSome = true := by
  induction grid with
  | nil => intro st _; rfl
  | cons v rest ih =>
      intro st h
      simp only [scanRows]
      cases hstep : scanStep st v with
      | none =>
          have hsome := @scanStep_isSome st v (h v (by simp))
          rw [hstep] at hsome
          simp at hsome
      | some st1 =>
          exact ih st1 (fun u hu => h u (by simp [hu]))

/-- Two possible enumerations of the same Python set are permutations of
each other. -/
lemma perm_of_isEnumOf {e1 e2 s : List String}
    (h1 : IsEnumOf e1 s) (h2 : IsEnumOf e2 s) : e1.Perm e2 := by
  refine List.perm_of_nodup_nodup_toFinset_eq h1.1 h2.1 ?_
  ext a
  simp only [List.mem_toFinset]
  exact ⟨fun h => h2.2.2 a (h1.2.1 a h), fun h => h1.2.2 a (h2.2.1 a h)⟩

lemma getElem?_of_getD {l : List String} {k : Nat} (h : k < l.length) :
    l[k]? = some (l.getD k "") := by
  rw [List.getElem?_eq_getElem h, List.getD_eq_getElem?_getD, List.getElem?_eq_getElem h]
  rfl

lemma assignLoop_no_hit {header : List String} {name : String} :
    ∀ (r : List Cell) (k : Nat) (rec : String → Cell),
      (∀ j, k ≤ j → j < k + r.length → header[j]? ≠ some name) →
      assignLoop header k r rec name = rec name := by
  intro r
  induction r with
  | nil => intro k rec _; rfl
  | cons v vs ih =>
      intro k rec hno
      simp only [assignLoop]
      by_cases hc : k < header.length ∧ header.getD k "" ≠ ""
      · rw [if_pos hc]
        have hkey : header.getD k "" ≠ name := by
          intro hcon
          exact hno k (le_refl k) (by simp)
            (by rw [getElem?_of_getD hc.1, hcon])
        rw [ih (k + 1) _ (fun j hj1 hj2 => hno j (by omega) (by simp at hj2 ⊢; omega))]
        unfold updateRec
        exact if_neg (fun hcon => hkey hcon.symm)
      · rw [if_neg hc]
        exact ih (k + 1) rec (fun j hj1 hj2 => hno j (by omega) (by simp at hj2 ⊢; omega))

lemma assignLoop_hit {header : List String} {name : String}
    (hname : name ≠ "") :
    ∀ (r : List Cell) (p k : Nat) (rec : String → Cell),
      header[k + p]? = some name → p < r.length →
      (∀ j, k + p < j → j < k + r.length → header[j]? ≠ some name) →
      assignLoop header k r rec name = r.getD p none := by
  intro r
  induction r with
  | nil => intro p k rec _ hp _; simp at hp
  | cons v vs ih =>
      intro p k rec hhit hplen hno
      cases p with
      | zero =>
          simp only [Nat.add_zero] at hhit
          have hklt : k < header.length := by
            by_contra hge
            rw [List.getElem?_eq_none (le_of_not_lt hge)] at hhit
            exact Option.noConfusion hhit
          have hkd : header.getD k "" = name := by
            have := getElem?_of_getD hklt
            rw [hhit] at this
            exact (Option.some.injEq _ _ ▸ this).symm
          simp only [assignLoop]
          rw [if_pos ⟨hklt, by rw [hkd]; exact hname⟩]
          rw [assignLoop_no_hit vs (k + 1) _
                (fun j hj1 hj2 => hno j (by omega) (by simp at hj2 ⊢; omega))]
          rw [hkd]
          simp [updateRec]
      | succ q =>
          simp only [assignLoop]
          rw [ih q (k + 1) _
                (by rw [show k + 1 + q = k + (q + 1) from by omega]; exact hhit)
                (by simpa using Nat.lt_of_succ_lt_succ hplen)
                (fun j hj1 hj2 => hno j (by omega) (by simp at hj2 ⊢; omega))]
          rfl

lemma cleanRest_spec (pfx : String) : ∀ rest : List String,
    (cleanRest pfx rest).1 = rest.filter (fun l => ! should_drop_line pfx l) ∧
    (cleanRest pfx rest).2.1 =
      (rest.filter (fun l => ! should_drop_line pfx l)).length ∧
    (cleanRest pfx rest).2.1 + (cleanRest pfx rest).2.2 = rest.length := by
  intro rest
  induction rest with
  | nil => exact ⟨rfl, rfl, rfl⟩
  | cons line rest ih =>
      obtain ⟨ih1, ih2, ih3⟩ := ih
      simp only [cleanRest]
      split_ifs with hd
      · refine ⟨?_, ?_, ?_⟩
        · simp [List.filter_cons, hd, ih1]
        · simp [List.filter_cons, hd, ih2]
        · simp only [List.length_cons]
          omega
      · refine ⟨?_, ?_, ?_⟩
        · simp [List.filter_cons, hd, ih1]
        · simp [List.filter_cons, hd, ih2]
        · simp only [List.length_cons]
          omega


/-!
## Claims
-/

/-- Claim C5, counterexample. The claim asserts a no-throw guarantee for
every byte input.  The byte input consisting of a single newline decodes
(decoding with `errors="replace"` never fails) and is split by `csv.reader`
into the single empty row `[[]]`; the loader then yields the zero-width grid
`[[]]`, and the scan loop evaluates `values[0]` on the empty row, raising
`IndexError` (modelled as `none`): the Scanner does not return a structural
result on this input. -/
theorem c5_counterexample :
    scanGrid (read_csv_loose [([] : List String)]) = none := by decide

/-- Claim C5, amended: the Loader (which is total by construction) returns a
Grid for every input, and the Scanner returns a Segment sequence without
raising for every input in which at least one source row has at least one
field — equivalently, whenever the Grid width is positive.  It raises
`IndexError` exactly on grids made only of empty rows, which the Loader
produces only for files whose every line is field-less. -/
theorem c5_amended (rawRows : List (List String)) (hne : ∃ r ∈ rawRows, r ≠ []) :
    (scanGrid (read_csv_loose rawRows)).isSome = true := by
  obtain ⟨r0, hr0, hr0ne⟩ := hne
  have hpos : 0 < maxRowLen rawRows := by
    have hmem : r0.length ∈ rawRows.map List.length := List.mem_map_of_mem _ hr0
    have h1 := le_foldr_max hmem 0
    have h2 : 0 < r0.length := List.length_pos.mpr hr0ne
    unfold maxRowLen
    omega
  have hrows : ∀ v ∈ read_csv_loose rawRows, v ≠ [] := by
    intro v hv hnil
    have hlen := read_csv_loose_length hv
    rw [hnil] at hlen
    simp only [List.length_nil] at hlen
    omega
  unfold scanGrid
  cases hrun : scanRows initState (read_csv_loose rawRows) with
  | none =>
      have hsome := scanRows_isSome initState hrows
      rw [hrun] at hsome
      simp at hsome
  | some st => rfl

/-- Claim C5, witness for the amended theorem at Scenario A. -/
theorem c5_witness :
    (∃ r ∈ scenarioA, r ≠ []) ∧
    (scanGrid (read_csv_loose scenarioA)).isSome = true :=
  ⟨by decide, c5_amended scenarioA (by decide)⟩

/-- Claim C6 (confirmed): every Segment emitted by the Segment Scanner has a
non-empty header and at least one data row; `flush_segment` discards a
segment lacking either (or with a falsy group label), so incomplete segments
never appear in the output sequence. -/
theorem c6_segment_completeness (grid : List (List Cell)) (segs : List Segment)
    (hs : List String) (h : scanGrid grid = some (segs, hs)) :
    ∀ seg ∈ segs, seg.header ≠ [] ∧ seg.rows ≠ [] := by
  intro seg hmem
  have hok := segsOK_scanGrid h seg hmem
  exact ⟨hok.2.1, hok.2.2⟩

/-- Claim C6, witness at Scenario A. -/
theorem c6_witness :
    scanGrid (read_csv_loose scenarioA) = some (segsA, hsA) ∧
    ∀ seg ∈ segsA, seg.header ≠ [] ∧ seg.rows ≠ [] :=
  ⟨by decide, c6_segment_completeness (read_csv_loose scenarioA) segsA hsA (by decide)⟩

/-- Claim C7 (confirmed): for every Output Record, the group-label column
equals the originating Segment's group label and is non-missing (the label
of an emitted segment is a non-empty string); the final assignment
`rec["公司名称"] = company` overwrites any value positionally mapped onto
that column by a colliding header name, for every header and row. -/
theorem c7_mapping_soundness (grid : List (List Cell)) (segs : List Segment)
    (hs : List String) (h : scanGrid grid = some (segs, hs)) :
    (∀ (header : List String) (company : String) (r : List Cell),
       mapRow header company r GROUP_COL = some company) ∧
    ∀ seg ∈ segs, seg.company ≠ "" ∧
      ∀ r ∈ seg.rows, mapRow seg.header seg.company r GROUP_COL = some seg.company := by
  have hover : ∀ (header : List String) (company : String) (r : List Cell),
      mapRow header company r GROUP_COL = some company := by
    intro header company r
    unfold mapRow updateRec
    simp
  refine ⟨hover, ?_⟩
  intro seg hmem
  exact ⟨(segsOK_scanGrid h seg hmem).1, fun r _ => hover _ _ _⟩

/-- Claim C7, witness at Scenario A. -/
theorem c7_witness :
    scanGrid (read_csv_loose scenarioA) = some (segsA, hsA) ∧
    ((∀ (header : List String) (company : String) (r : List Cell),
        mapRow header company r GROUP_COL = some company) ∧
     ∀ seg ∈ segsA, seg.company ≠ "" ∧
       ∀ r ∈ seg.rows, mapRow seg.header seg.company r GROUP_COL = some seg.company) :=
  ⟨by decide, c7_mapping_soundness (read_csv_loose scenarioA) segsA hsA (by decide)⟩

/-- Claim C8 (confirmed): every row of a Grid produced by the Loose CSV
Loader has length equal to the maximum source row length, and the cells a
shorter source row gains on the right are missing cells. -/
theorem c8_width_invariant (rawRows : List (List String)) :
    (∀ r ∈ read_csv_loose rawRows, r.length = maxRowLen rawRows) ∧
    (∀ (i j : Nat) (r0 : List String),
       rawRows[i]? = some r0 → r0.length ≤ j → j < maxRowLen rawRows →
       ∃ g, (read_csv_loose rawRows)[i]? = some g ∧ g[j]? = some none) := by
  constructor
  · intro r hr
    exact read_csv_loose_length hr
  · intro i j r0 hi hle hlt
    have hne : rawRows ≠ [] := by
      intro hrr
      subst hrr
      simp at hi
    have hgrid : read_csv_loose rawRows =
        (rawRows.map (fun r => r.map pyStrip)).map
          (fun r => (r ++ List.replicate (maxRowLen rawRows - r.length) "").map toCell) := by
      simp only [read_csv_loose]
      rw [if_neg (by simpa using hne), maxRowLen_stripped]
    rw [hgrid, List.getElem?_map, List.getElem?_map, hi]
    refine ⟨_, rfl, ?_⟩
    rw [List.getElem?_map,
        List.getElem?_append_right (by simpa using hle),
        List.getElem?_replicate]
    rw [if_pos (by simp; omega)]
    rfl

/-- Claim C8, witness at a concrete two-row ragged file. -/
theorem c8_witness :
    [some "a", (none : Cell)] ∈ read_csv_loose [["a"], ["b", "c"]] ∧
    ([some "a", (none : Cell)] : List Cell).length = maxRowLen [["a"], ["b", "c"]] ∧
    [["a"], ["b", "c"]][0]? = some ["a"] ∧
    ∃ g, (read_csv_loose [["a"], ["b", "c"]])[0]? = some g ∧ g[1]? = some none :=
  ⟨by decide, (c8_width_invariant [["a"], ["b", "c"]]).1 _ (by decide), by decide,
   (c8_width_invariant [["a"], ["b", "c"]]).2 0 1 ["a"] (by decide) (by decide) (by decide)⟩

/-- Claim C1, counterexample. The claim says a row is classified as a
group-label row iff exactly one of its cells is non-missing, regardless of
position, and that such a row seals the current segment in every state.  In
the source the check is `pd.notna(values[0]) and row.count() == 1`: the sole
non-missing cell must sit in the first column.  On the grid below, the last
row `["", "X"]` has exactly one non-missing cell (at position 1, i.e.
`rowCount = 1`), yet the scanner appends it as a data row of the running
segment instead of sealing the segment after its single data row as the
claim predicts. -/
theorem c1_counterexample :
    rowCount [none, some "X"] = 1 ∧
    scanGrid (read_csv_loose [["G1"], ["H1", "H2"], ["a", "b"], ["", "X"]]) =
      some ([⟨"G1", ["H1", "H2"], [[some "a", some "b"], [none, some "X"]]⟩],
            ["H1", "H2"]) ∧
    scanGrid (read_csv_loose [["G1"], ["H1", "H2"], ["a", "b"], ["", "X"]]) ≠
      some ([⟨"G1", ["H1", "H2"], [[some "a", some "b"]]⟩], ["H1", "H2"]) := by
  refine ⟨by decide, by decide, by decide⟩

/-- Claim C1, amended: a row is classified as a group-label row iff exactly
one of its cells is non-missing AND that cell is the row's first cell
(`pd.notna(values[0]) and row.count() == 1`).  This check does come first in
every state, so such a row seals any in-progress segment and starts a new
one with the cell value as group label; but a row whose single non-missing
cell is NOT in the first column is collected as an ordinary data row during
Collecting-Data. -/
theorem c1_amended (st : ScanState) (v0 : Cell) (rest : List Cell) :
    (v0 ≠ none ∧ rowCount (v0 :: rest) = 1 →
       scanStep st (v0 :: rest) =
         some ⟨flush_segment st.current_company st.current_header
                 st.current_rows st.segments,
               v0, none, [], st.global_headers⟩) ∧
    (v0 = none → rowCount (v0 :: rest) = 1 →
       pyTruthy st.current_company = true → pyTruthyList st.current_header = true →
       scanStep st (v0 :: rest) =
         some { st with current_rows := st.current_rows ++ [v0 :: rest] }) := by
  constructor
  · intro h
    simp only [scanStep]
    rw [if_pos h]
  · intro h0 h1 hc hh
    simp only [scanStep]
    rw [if_neg (by rintro ⟨hv, _⟩; exact hv h0)]
    rw [if_neg (by
          rintro ⟨_, hnone, _⟩
          rw [hnone] at hh
          simp [pyTruthyList] at hh)]
    rw [if_pos ⟨hc, hh, by omega⟩]

/-- Claim C1, witness for the amended theorem: in a Collecting-Data state, a
first-column singleton row seals the segment while a second-column singleton
row is appended as a data row. -/
theorem c1_witness :
    scanStep ⟨[], some "G", some ["H"], [[some "a"]], ["H"]⟩ [some "Y", none] =
      some ⟨flush_segment (some "G") (some ["H"]) [[some "a"]] [],
            some "Y", none, [], ["H"]⟩ ∧
    scanStep ⟨[], some "G", some ["H"], [[some "a"]], ["H"]⟩ [none, some "X"] =
      some ⟨[], some "G", some ["H"], [[some "a"], [none, some "X"]], ["H"]⟩ :=
  ⟨(c1_amended ⟨[], some "G", some ["H"], [[some "a"]], ["H"]⟩ (some "Y") [none]).1
      (by decide),
   (c1_amended ⟨[], some "G", some ["H"], [[some "a"]], ["H"]⟩ none [some "X"]).2
      rfl (by decide) (by decide) (by decide)⟩

/-- Claim C2, counterexample. The claim fixes the Global Schema of
Scenario A to `["Name", "Age", "City", "公司名称"]` in exactly that order.
The non-group columns are materialised by `list(global_headers)` from a
Python `set`, whose iteration order is unspecified (hash-dependent):
`["Age", "Name", "City"]` is an equally possible enumeration of that set,
and it yields a different schema, so the code does not produce the claimed
order. -/
theorem c2_counterexample :
    scanGrid (read_csv_loose scenarioA) = some (segsA, hsA) ∧
    IsEnumOf ["Age", "Name", "City"] hsA ∧
    globalSchema ["Age", "Name", "City"] ≠ ["Name", "Age", "City", GROUP_COL] := by
  refine ⟨by decide, by decide, by decide⟩

/-- Claim C2, amended: on Scenario A the non-group columns of the Global
Schema are SOME permutation of `["Name", "Age", "City"]` (which one depends
on the set's iteration order), the synthetic group-label column `公司名称`
is appended last, and exactly two Output Records are produced with the
claimed cell values (Alice/30/missing/CompanyA and Bob/missing/NYC/CompanyB). -/
theorem c2_amended (segs : List Segment) (hs e : List String)
    (h : scanGrid (read_csv_loose scenarioA) = some (segs, hs))
    (he : IsEnumOf e hs) :
    e.Perm ["Name", "Age", "City"] ∧
    globalSchema e = e ++ [GROUP_COL] ∧
    ∃ r1 r2, buildRecords segs = [r1, r2] ∧
      r1 "Name" = some "Alice" ∧ r1 "Age" = some "30" ∧ r1 "City" = none ∧
      r1 GROUP_COL = some "CompanyA" ∧
      r2 "Name" = some "Bob" ∧ r2 "Age" = none ∧ r2 "City" = some "NYC" ∧
      r2 GROUP_COL = some "CompanyB" := by
  have hconc : scanGrid (read_csv_loose scenarioA) = some (segsA, hsA) := by decide
  rw [hconc] at h
  injection h with h
  rw [Prod.mk.injEq] at h
  obtain ⟨h1, h2⟩ := h
  subst h1
  subst h2
  refine ⟨perm_of_isEnumOf he (by decide), rfl,
    mapRow ["Name", "Age"] "CompanyA" [some "Alice", some "30"],
    mapRow ["Name", "City"] "CompanyB" [some "Bob", some "NYC"],
    rfl, by decide, by decide, by decide, by decide,
    by decide, by decide, by decide, by decide⟩

/-- Claim C2, witness for the amended theorem with the enumeration
`["Name", "Age", "City"]`. -/
theorem c2_witness :
    scanGrid (read_csv_loose scenarioA) = some (segsA, hsA) ∧
    IsEnumOf hsA hsA ∧
    (hsA.Perm ["Name", "Age", "City"] ∧
     globalSchema hsA = hsA ++ [GROUP_COL] ∧
     ∃ r1 r2, buildRecords segsA = [r1, r2] ∧
       r1 "Name" = some "Alice" ∧ r1 "Age" = some "30" ∧ r1 "City" = none ∧
       r1 GROUP_COL = some "CompanyA" ∧
       r2 "Name" = some "Bob" ∧ r2 "Age" = none ∧ r2 "City" = some "NYC" ∧
       r2 GROUP_COL = some "CompanyB") :=
  ⟨by decide, by decide, c2_amended segsA hsA hsA (by decide) (by decide)⟩

/-- Claim C3, counterexample. The claim says the Header Unifier orders the
non-group columns by first appearance and that the ordering is deterministic
for a fixed input.  `global_headers` is a Python `set`, so the materialised
order is whatever hash-dependent enumeration `list()` happens to produce:
for the Scenario A header set, `["Name", "Age", "City"]` and
`["City", "Age", "Name"]` are both possible enumerations and they give
different Global Schemas, so the output ordering is not determined by the
input (and in particular not the first-appearance order). -/
theorem c3_counterexample :
    scanGrid (read_csv_loose scenarioA) = some (segsA, hsA) ∧
    IsEnumOf ["Name", "Age", "City"] hsA ∧
    IsEnumOf ["City", "Age", "Name"] hsA ∧
    globalSchema ["Name", "Age", "City"] ≠ globalSchema ["City", "Age", "Name"] := by
  refine ⟨by decide, by decide, by decide, by decide⟩

/-- Claim C3, amended: the non-group columns of the Global Schema are the
distinct non-missing header cell values accumulated during the scan (in
particular they contain every non-missing header cell of every emitted
segment), without duplicates; the order is an unspecified set enumeration —
any two enumerations agree only up to permutation. -/
theorem c3_amended (grid : List (List Cell)) (segs : List Segment)
    (hs e : List String) (h : scanGrid grid = some (segs, hs))
    (he : IsEnumOf e hs) :
    e.Nodup ∧
    (∀ seg ∈ segs, ∀ x ∈ seg.header, x ≠ "" → x ∈ e) ∧
    ∀ e2, IsEnumOf e2 hs → e2.Perm e := by
  refine ⟨he.1, ?_, fun e2 he2 => perm_of_isEnumOf he2 he⟩
  intro seg hmem x hx hxe
  exact he.2.2 x (hdrs_scanGrid h seg hmem x hx hxe)

/-- Claim C3, witness for the amended theorem at Scenario A. -/
theorem c3_witness :
    scanGrid (read_csv_loose scenarioA) = some (segsA, hsA) ∧
    IsEnumOf hsA hsA ∧
    (hsA.Nodup ∧
     (∀ seg ∈ segsA, ∀ x ∈ seg.header, x ≠ "" → x ∈ hsA) ∧
     ∀ e2, IsEnumOf e2 hsA → e2.Perm hsA) :=
  ⟨by decide, by decide,
   c3_amended (read_csv_loose scenarioA) segsA hsA hsA (by decide) (by decide)⟩

/-- Claim C4, counterexample. The claim says the Global Schema never
contains a column name twice, even when a header cell equals the synthetic
group-label column name.  In the source, a header cell `"公司名称"` enters
the `global_headers` set, and `global_headers.append("公司名称")` then adds
the name a second time: the schema contains `公司名称` twice. -/
theorem c4_counterexample :
    scanGrid (read_csv_loose [["G"], ["公司名称", "H"], ["a", "b"]]) =
      some ([⟨"G", ["公司名称", "H"], [[some "a", some "b"]]⟩], ["公司名称", "H"]) ∧
    IsEnumOf ["公司名称", "H"] ["公司名称", "H"] ∧
    ¬ (globalSchema ["公司名称", "H"]).Nodup ∧
    (globalSchema ["公司名称", "H"]).count "公司名称" = 2 := by
  refine ⟨by decide, by decide, by decide, by decide⟩

/-- Claim C4, amended: provided no header cell value equals the synthetic
group-label column name (i.e. `公司名称` is not in the header-value set),
the Global Schema contains no column name twice and contains exactly one
group-label column, positioned last.  When a header cell does equal that
name, the name appears twice (see the counterexample). -/
theorem c4_amended (grid : List (List Cell)) (segs : List Segment)
    (hs e : List String) (_h : scanGrid grid = some (segs, hs))
    (he : IsEnumOf e hs) (hg : GROUP_COL ∉ hs) :
    (globalSchema e).Nodup ∧
    (globalSchema e).getLast? = some GROUP_COL ∧
    (globalSchema e).count GROUP_COL = 1 := by
  have hne : GROUP_COL ∉ e := fun hm => hg (he.2.1 _ hm)
  unfold globalSchema
  refine ⟨?_, ?_, ?_⟩
  · rw [List.nodup_append]
    refine ⟨he.1, List.nodup_singleton _, ?_⟩
    intro a ha hb
    simp only [List.mem_singleton] at hb
    subst hb
    exact hne ha
  · exact List.getLast?_concat _
  · rw [List.count_append, List.count_eq_zero.mpr hne]
    simp

/-- Claim C4, witness for the amended theorem at Scenario A (whose header
set does not contain `公司名称`). -/
theorem c4_witness :
    scanGrid (read_csv_loose scenarioA) = some (segsA, hsA) ∧
    IsEnumOf hsA hsA ∧
    GROUP_COL ∉ hsA ∧
    ((globalSchema hsA).Nodup ∧
     (globalSchema hsA).getLast? = some GROUP_COL ∧
     (globalSchema hsA).count GROUP_COL = 1) :=
  ⟨by decide, by decide, by decide,
   c4_amended (read_csv_loose scenarioA) segsA hsA hsA (by decide) (by decide) (by decide)⟩

/-- Claim C9 (confirmed): `clean_one_file` always drops the file's first
physical line, and among the remaining lines keeps exactly those that
`_should_drop_line` rejects; a line is dropped iff it is blank
(`line.strip() == ""`), or it parses and is effectively empty (every cell
normalises to the empty string), or it parses and its first populated
(normalised) cell starts with the configured literal prefix.  Unparseable
lines are kept; in this model the single-line parse fails only on the empty
string, which the blank check already catches. -/
theorem c9_cleaner_drop_rule (pfx : String) (lines : List String) :
    (clean_one_file pfx lines).1 =
      (lines.drop 1).filter (fun l => ! should_drop_line pfx l) ∧
    (clean_one_file pfx lines).2.1 =
      ((lines.drop 1).filter (fun l => ! should_drop_line pfx l)).length ∧
    (clean_one_file pfx lines).2.1 + (clean_one_file pfx lines).2.2 = lines.length ∧
    ∀ line, should_drop_line pfx line = true ↔
      (pyStrip line = "" ∨
       ∃ cells, parse_csv_line line = some cells ∧
         (row_is_effectively_empty cells = true ∨
          pyStartsWith (first_nonempty_cell cells) pfx = true)) := by
  refine ⟨?_, ?_, ?_, ?_⟩
  · cases lines with
    | nil => rfl
    | cons first rest =>
        simpa using (cleanRest_spec pfx rest).1
  · cases lines with
    | nil => rfl
    | cons first rest =>
        simpa using (cleanRest_spec pfx rest).2.1
  · cases lines with
    | nil => rfl
    | cons first rest =>
        have h3 := (cleanRest_spec pfx rest).2.2
        simp only [clean_one_file, List.length_cons]
        omega
  · intro line
    unfold should_drop_line
    split_ifs with hb
    · simp [hb]
    · cases hp : parse_csv_line line with
      | none => simp [hb, hp]
      | some cells =>
          have hR : (pyStrip line = "" ∨
              ∃ cells2, (some cells : Option (List String)) = some cells2 ∧
                (row_is_effectively_empty cells2 = true ∨
                 pyStartsWith (first_nonempty_cell cells2) pfx = true)) ↔
              (row_is_effectively_empty cells = true ∨
               pyStartsWith (first_nonempty_cell cells) pfx = true) := by
            simp [hb]
          rw [hR]
          show (if row_is_effectively_empty cells = true then true
                else if pyStartsWith (first_nonempty_cell cells) pfx = true then true
                else false) = true ↔
               (row_is_effectively_empty cells = true ∨
                pyStartsWith (first_nonempty_cell cells) pfx = true)
          split_ifs with h1 h2
          · simp [h1]
          · simp [h2]
          · simp [h1, h2]

/-- Claim C10, counterexample. The claim says that whenever a header repeats
a column name, the emitted Output Record holds the row's value at the
rightmost occurrence.  When the repeated name is the group-label column name
`公司名称` itself, the final `rec["公司名称"] = company` assignment wins
instead: below, the rightmost occurrence maps `some "b"`, but the emitted
record holds the group label `some "G"`. -/
theorem c10_counterexample :
    scanGrid (read_csv_loose [["G"], ["公司名称", "公司名称"], ["a", "b"]]) =
      some ([⟨"G", ["公司名称", "公司名称"], [[some "a", some "b"]]⟩], ["公司名称"]) ∧
    mapRow ["公司名称", "公司名称"] "G" [some "a", some "b"] "公司名称" = some "G" ∧
    (some "G" : Cell) ≠ some "b" := by
  refine ⟨by decide, by decide, by decide⟩

/-- Claim C10, amended: for a column name other than the synthetic
group-label column name, the Record Mapper assigns the row's value at the
greatest position `p` (within both the header's and the row's length) at
which the header holds that name — later positional assignments overwrite
earlier ones.  On the group-label column name itself the group label wins
(see the counterexample and C7). -/
theorem c10_rightmost_wins (header : List String) (company : String)
    (r : List Cell) (name : String) (p : Nat)
    (hname : name ≠ "") (hgl : name ≠ GROUP_COL)
    (hp : header[p]? = some name) (hpr : p < r.length)
    (hlast : ∀ q, p < q → q < r.length → header[q]? ≠ some name) :
    mapRow header company r name = r.getD p none := by
  unfold mapRow updateRec
  show (if name = GROUP_COL then some company
        else assignLoop header 0 r (fun _ => none) name) = r.getD p none
  rw [if_neg hgl]
  exact assignLoop_hit hname r p 0 (fun _ => none) (by simpa using hp) hpr
    (fun q hq1 hq2 => hlast q (by simpa using hq1) (by simpa using hq2))

/-- Claim C10, witness: header `["X", "Y", "X"]` repeats `"X"` at positions
0 and 2; the record holds the row's value at position 2. -/
theorem c10_witness :
    mapRow ["X", "Y", "X"] "G" [some "1", some "2", some "3"] "X" =
      List.getD [some "1", some "2", some "3"] 2 none :=
  c10_rightmost_wins ["X", "Y", "X"] "G" [some "1", some "2", some "3"] "X" 2
    (by decide) (by decide) (by decide) (by decide)
    (fun q hq1 hq2 => absurd hq1 (by simp at hq2; omega))
